import Mathlib

/-!
# Evoke: real-time feed and push-notification helpers

A shallow embedding of `staticfiles/js/realtime.js` (class `RealTimeManager`)
and `staticfiles/js/notification.js` (class `NotificationManager`).

The page is single threaded: every handler runs to completion, so a handler is
a function from the state of the page before it to the state after it.  A
handler that can throw returns `Except JSError _`.  JavaScript numbers that the
code uses as counters, delays and byte values are natural numbers; numbers
received from the server (`points`, `unread_count`) are integers that a
JavaScript Number can hold, and their conversion to a string follows the
language standard, which prints the shortest numeral that reads back as the
same Number.
-/

namespace Evoke

/-! ## Values shared by both files -/

/-- Exceptions the modelled code can raise. -/
inductive JSError where
  | typeError
  | syntaxError
  | invalidCharacterError
  deriving DecidableEq, Repr

/-! ## Number to string

`Number::toString` of the language standard, for the Numbers that are
integers.  Such a Number is `m * 2 ^ e` with `m < 2 ^ 53`; every integer below
`2 ^ 53` is one. -/

/-- The number of halvings that bring `N` below `2 ^ 53`, at most `fuel`. -/
def excessBits : Nat → Nat → Nat
  | _, 0 => 0
  | N, fuel + 1 => if N < 2 ^ 53 then 0 else excessBits (N / 2) fuel + 1

/-- The Number nearest to the integer `N`, ties going to the even significand
(no Number is infinite here: `N` is below `2 ^ 1024`). -/
def roundToDouble (N : Nat) : Nat :=
  let e := excessBits N N
  let q := N / 2 ^ e
  let r := N % 2 ^ e
  if 2 * r < 2 ^ e then q * 2 ^ e
  else if 2 ^ e < 2 * r then (q + 1) * 2 ^ e
  else if q % 2 = 0 then q * 2 ^ e
  else (q + 1) * 2 ^ e

/-- The integer `s * 10 ^ j` with the fewest digits in `s` that reads back as
the Number `x`: from level `j` downwards, the first level at which a multiple of
`10 ^ j` next to `x` rounds to `x`; of two such the nearer to `x`, and the one
with even `s` when they are equally near.  Level 0 is `x` itself. -/
def shortestDecimal (x : Nat) : Nat → Nat
  | 0 => x
  | j + 1 =>
    let p := 10 ^ (j + 1)
    let lower := x / p * p
    let upper := lower + p
    let lowerOk := decide (lower ≠ 0) && decide (roundToDouble lower = x)
    let upperOk := decide (roundToDouble upper = x)
    if lowerOk && upperOk then
      if x - lower < upper - x then lower
      else if upper - x < x - lower then upper
      else if lower / p % 2 = 0 then lower
      else upper
    else if lowerOk then lower
    else if upperOk then upper
    else shortestDecimal x j

/-- Scientific notation of `c`, an integer of `n > 21` digits: the digits of
`c` without its trailing zeros, a point after the first of them when there are
several, then `e+` and `n - 1`. -/
def exponential (c : Nat) : String :=
  let digits := (toString c).toList
  let significand := (digits.reverse.dropWhile fun d => d = '0').reverse
  match significand with
  | [] => ""
  | [d] => String.mk [d] ++ "e+" ++ toString (digits.length - 1)
  | d :: rest =>
    String.mk [d] ++ "." ++ String.mk rest ++ "e+" ++ toString (digits.length - 1)

/-- String conversion of a Number that is the natural number `x`: the decimal
numeral of the shortest integer that reads back as `x` when that has at most
21 digits, scientific notation otherwise. -/
def naturalToString (x : Nat) : String :=
  let c := shortestDecimal x (toString x).length
  if c < 10 ^ 21 then toString c else exponential c

/-- String conversion of a Number that is the integer `n`. -/
def numberToString (n : Int) : String :=
  if n < 0 then "-" ++ naturalToString n.natAbs else naturalToString n.natAbs

/-- Primitive JavaScript values that can sit in a field of a JSON object; a
number is one that is an integer. -/
inductive JSValue where
  | undefined
  | null
  | bool (b : Bool)
  | number (n : Int)
  | string (s : String)
  deriving DecidableEq, Repr

/-- String conversion as performed by a template literal or `textContent`. -/
def JSValue.toJSString : JSValue → String
  | .undefined => "undefined"
  | .null => "null"
  | .bool b => if b then "true" else "false"
  | .number n => numberToString n
  | .string s => s

/-! ## `realtime.js`: state of the page -/

/-- A `WebSocket` object, identified by the URL it was opened with. -/
structure WebSocket where
  url : String
  deriving DecidableEq, Repr

/-- Fields of a `RealTimeManager` instance. -/
structure RealTimeManager where
  socket : Option WebSocket
  reconnectAttempts : Nat
  maxReconnectAttempts : Nat
  deriving DecidableEq, Repr

/-- The element with id `notification-badge`. -/
structure Badge where
  textContent : String
  classList : List String
  deriving DecidableEq, Repr

/-- A toast `div` created by `showToast`. -/
structure Toast where
  className : String
  innerHTML : String
  deriving DecidableEq, Repr

/-- What a `setTimeout` callback of `realtime.js` does when it runs. -/
inductive Callback where
  | connectWebSocket
  | removeToast (toast : Nat)
  deriving DecidableEq, Repr

/-- One `setTimeout(callback, delay)` call. -/
structure Timer where
  callback : Callback
  delay : Nat
  deriving DecidableEq, Repr

/-- One entry of a leaderboard payload. -/
structure LeaderboardEntry where
  name : String
  points : Int
  crest : String
  deriving DecidableEq, Repr

/-- The three properties `realtime.js` reads off a parsed frame that is not
`null`.  `data` is `none` when the `data` property is not an array.  A frame
that is a boolean, a number, a string or an array has none of the three: all of
them read as `undefined`. -/
structure InboundMessage where
  type : JSValue
  data : Option (List LeaderboardEntry)
  message : JSValue
  deriving DecidableEq, Repr

/-- What `JSON.parse` returns for a frame: `null`, on which reading a property
raises, or a value whose properties can be read. -/
inductive Parsed where
  | null
  | value (properties : InboundMessage)
  deriving DecidableEq, Repr

/-- Whether the frame has a `type` property strictly equal to the string
`kind`. -/
def Parsed.hasType (data : Parsed) (kind : String) : Bool :=
  match data with
  | .null => false
  | .value properties => decide (properties.type = JSValue.string kind)

/-- The parts of `window` that `realtime.js` reads and never writes. -/
structure Window where
  webSocket : Bool
  protocol : String
  host : String
  notificationManager : Bool
  notificationGranted : Bool
  deriving DecidableEq, Repr

/-- The document as the server delivered it: the two elements the code looks
up by id, each possibly absent. -/
structure Document where
  leaderboard : Option String
  badge : Option Badge
  deriving DecidableEq, Repr

/-- Everything `realtime.js` can read or change.  `timeouts` and `intervals`
record the `setTimeout` and `setInterval` calls made so far, in order;
`body` holds the toasts appended to `document.body`, each with the serial
number of its creation. -/
structure World where
  manager : RealTimeManager
  leaderboard : Option String
  badge : Option Badge
  body : List (Nat × Toast)
  toastsCreated : Nat
  timeouts : List Timer
  intervals : List Nat
  notifications : List (String × String)
  console : List String
  deriving DecidableEq, Repr

/-! ## `realtime.js`: reconnecting -/

/-- The expression `Math.min(1000 * Math.pow(2, n), 30000)`. -/
def reconnectDelay (n : Nat) : Nat :=
  min (1000 * 2 ^ n) 30000

/-- `connectWebSocket()`: installs a fresh socket unless the platform has no
`WebSocket`. -/
def connectWebSocket (win : Window) (w : World) : World :=
  if win.webSocket = false then
    { w with console := w.console ++ ["WebSockets not supported, falling back to polling"] }
  else
    let protocol := if win.protocol = "https:" then "wss:" else "ws:"
    let wsUrl := protocol ++ "//" ++ win.host ++ "/ws/leaderboard/"
    { w with manager := { w.manager with socket := some { url := wsUrl } } }

/-- `attemptReconnect()`. -/
def attemptReconnect (w : World) : World :=
  if w.manager.reconnectAttempts < w.manager.maxReconnectAttempts then
    let reconnectAttempts := w.manager.reconnectAttempts + 1
    let delay := reconnectDelay reconnectAttempts
    { w with
      manager := { w.manager with reconnectAttempts := reconnectAttempts }
      console := w.console ++
        ["Attempting reconnect in " ++ toString delay ++ "ms (attempt " ++
          toString reconnectAttempts ++ ")"]
      timeouts := w.timeouts ++ [{ callback := Callback.connectWebSocket, delay := delay }] }
  else
    w

/-- The `onopen` handler. -/
def onopen (w : World) : World :=
  { w with
    console := w.console ++ ["WebSocket connected"]
    manager := { w.manager with reconnectAttempts := 0 } }

/-- The `onclose` handler. -/
def onclose (w : World) : World :=
  attemptReconnect { w with console := w.console ++ ["WebSocket disconnected"] }

/-- The `onerror` handler. -/
def onerror (w : World) : World :=
  { w with console := w.console ++ ["WebSocket error:"] }

/-- `setupPolling()`. -/
def setupPolling (w : World) : World :=
  { w with intervals := w.intervals ++ [30000, 60000] }

/-- The delays of the reconnects scheduled so far, oldest first. -/
def reconnectDelays (w : World) : List Nat :=
  (w.timeouts.filter fun t => t.callback = Callback.connectWebSocket).map Timer.delay

/-! ## `realtime.js`: rendering -/

/-- The text of the row template in front of the rank span. -/
def rowOpen : String :=
  "\n                <div class=\"flex items-center justify-between p-4 border-b border-red-800/30\">\n                    <div class=\"flex items-center space-x-4\">\n                        "

/-- The text of the row template behind the marker. -/
def rowClose : String :=
  "\n                </div>\n            "

/-- The markup `updateLeaderboard` adds to a top-ranked row. -/
def trophy : String := "<span class=\"text-2xl\">🏆</span>"

/-- The template literal of `updateLeaderboard` for `house` at position
`index`, its fixed text cut at the borders of the elements. -/
def renderRow (index : Nat) (house : LeaderboardEntry) : String :=
  rowOpen
    ++ "<span class=\"text-2xl font-bold "
    ++ (if index < 3 then "text-yellow-400" else "text-gray-300")
    ++ "\">"
    ++ "\n                            "
    ++ naturalToString (index + 1)
    ++ "\n                        </span>"
    ++ "\n                        "
    ++ "<img src=\""
    ++ house.crest
    ++ "\" alt=\""
    ++ house.name
    ++ "\" class=\"w-10 h-10 object-contain\">"
    ++ "\n                        <div>\n                            "
    ++ "<h3 class=\"font-semibold\">"
    ++ house.name
    ++ "</h3>"
    ++ "\n                            "
    ++ "<p class=\"text-sm text-gray-400\">"
    ++ numberToString house.points
    ++ " points</p>"
    ++ "\n                        </div>\n                    "
    ++ "</div>\n                    "
    ++ (if index < 3 then trophy else "")
    ++ rowClose

/-- `updateLeaderboard(leaderboardData)`.  The argument is `none` when it is
not an array, in which case `.map` raises once the element has been found. -/
def updateLeaderboard (leaderboardData : Option (List LeaderboardEntry)) (w : World) :
    Except JSError World :=
  match w.leaderboard with
  | none => .ok w
  | some _ =>
    match leaderboardData with
    | none => .error JSError.typeError
    | some entries =>
      .ok { w with
        leaderboard :=
          some (String.join (entries.mapIdx renderRow)) }

/-- `classList.toggle(token, force)` on an ordered set of class names. -/
def classListToggle (classList : List String) (token : String) (force : Bool) : List String :=
  if token ∈ classList then
    if force then classList else classList.filter fun c => c ≠ token
  else
    if force then classList ++ [token] else classList

/-- `updateNotificationBadge(count)` for a `count` that is an integer. -/
def updateNotificationBadge (count : Int) (w : World) : World :=
  match w.badge with
  | none => w
  | some badge =>
    { w with
      badge := some
        { textContent := numberToString count
          classList := classListToggle badge.classList "hidden" (decide (count = 0)) } }

/-- `showLocalNotification(title, message)` of `notification.js` as seen from
this file: a platform notification appears when permission is granted. -/
def showLocalNotification (win : Window) (title : String) (message : JSValue) (w : World) :
    World :=
  if win.notificationGranted then
    { w with notifications := w.notifications ++ [(title, message.toJSString)] }
  else
    w

/-- `showToast(message)`. -/
def showToast (message : JSValue) (w : World) : World :=
  let toast : Toast :=
    { className :=
        "fixed top-4 right-4 bg-black/80 text-white p-4 rounded-lg border border-accent shadow-lg z-50 max-w-sm"
      innerHTML :=
        "\n            <div class=\"flex items-center space-x-3\">\n                <div class=\"w-3 h-3 bg-accent rounded-full animate-pulse\"></div>\n                <p>"
          ++ message.toJSString
          ++ "</p>\n            </div>\n        " }
  { w with
    body := w.body ++ [(w.toastsCreated, toast)]
    toastsCreated := w.toastsCreated + 1
    timeouts := w.timeouts ++ [{ callback := Callback.removeToast w.toastsCreated, delay := 5000 }] }

/-- `showNewNotification(message)`. -/
def showNewNotification (win : Window) (message : JSValue) (w : World) : World :=
  let w1 :=
    if win.notificationManager then showLocalNotification win "Evoke Update" message w else w
  showToast message w1

/-- `handleWebSocketMessage(data)`.  Reading `data.type` raises a `TypeError`
when `data` is `null`. -/
def handleWebSocketMessage (win : Window) (data : Parsed) (w : World) :
    Except JSError World :=
  match data with
  | .null => .error JSError.typeError
  | .value properties =>
    if properties.type = JSValue.string "leaderboard_update" then
      updateLeaderboard properties.data w
    else if properties.type = JSValue.string "notification" then
      .ok (showNewNotification win properties.message w)
    else
      .ok { w with
        console := w.console ++ ["Unknown message type: " ++ properties.type.toJSString] }

/-- The `onmessage` handler.  The event data is `none` when it is not valid
JSON, in which case `JSON.parse` raises. -/
def onmessage (win : Window) (eventData : Option Parsed) (w : World) :
    Except JSError World :=
  match eventData with
  | none => .error JSError.syntaxError
  | some data => handleWebSocketMessage win data w

/-! ## `realtime.js`: polling -/

/-- How a `fetch` followed by `response.json()` ends. -/
inductive FetchOutcome (α : Type) where
  | networkFailure
  | invalidJSON
  | json (body : α)
  deriving DecidableEq, Repr

/-- `pollLeaderboard()`: every failure is caught and logged. -/
def pollLeaderboard (outcome : FetchOutcome (Option (List LeaderboardEntry))) (w : World) :
    World :=
  match outcome with
  | .json data =>
    match updateLeaderboard data w with
    | .ok w1 => w1
    | .error _ => { w with console := w.console ++ ["Error polling leaderboard:"] }
  | _ => { w with console := w.console ++ ["Error polling leaderboard:"] }

/-- `pollNotifications()`: every failure is caught and logged.  The body is
the `unread_count` of the response. -/
def pollNotifications (outcome : FetchOutcome Int) (w : World) : World :=
  match outcome with
  | .json unreadCount => updateNotificationBadge unreadCount w
  | _ => { w with console := w.console ++ ["Error polling notifications:"] }

/-! ## `realtime.js`: the page as a state machine -/

/-- What can happen to the page once the manager exists.  A timer or a poll
may fire at any point. -/
inductive Event where
  | open
  | message (eventData : Option Parsed)
  | close
  | error
  | timeout (callback : Callback)
  | leaderboardPoll (outcome : FetchOutcome (Option (List LeaderboardEntry)))
  | notificationPoll (outcome : FetchOutcome Int)
  deriving DecidableEq, Repr

/-- The handler the page runs for an event.  A handler that raises has changed
nothing before it does so. -/
def handle (win : Window) (w : World) : Event → World
  | .open => onopen w
  | .message eventData =>
    match onmessage win eventData w with
    | .ok w1 => w1
    | .error _ => w
  | .close => onclose w
  | .error => onerror w
  | .timeout Callback.connectWebSocket => connectWebSocket win w
  | .timeout (Callback.removeToast toast) =>
    { w with body := w.body.filter fun t => t.1 ≠ toast }
  | .leaderboardPoll outcome => pollLeaderboard outcome w
  | .notificationPoll outcome => pollNotifications outcome w

/-- `new RealTimeManager()` on a freshly loaded document. -/
def construct (win : Window) (doc : Document) : World :=
  let w : World :=
    { manager := { socket := none, reconnectAttempts := 0, maxReconnectAttempts := 5 }
      leaderboard := doc.leaderboard
      badge := doc.badge
      body := []
      toastsCreated := 0
      timeouts := []
      intervals := []
      notifications := []
      console := [] }
  setupPolling (connectWebSocket win w)

/-- The page after a sequence of events. -/
def run (win : Window) (w : World) (events : List Event) : World :=
  events.foldl (handle win) w

/-- Number of close events in a sequence. -/
def closes (events : List Event) : Nat :=
  events.countP fun e => e = Event.close

/-! ## `notification.js`: uploading the subscription -/

/-- One `fetch` call: where it goes and what it carries. -/
structure Request where
  url : String
  method : String
  headers : List (String × String)
  body : String
  deriving DecidableEq, Repr

/-- What `updateSubscriptionOnServer` can change: the requests sent and the
console. -/
structure Upload where
  requests : List Request
  console : List String
  deriving DecidableEq, Repr

/-- How the promise of an `async` function settles. -/
inductive Settled where
  | fulfilled
  | rejected (reason : JSError)
  deriving DecidableEq, Repr

/-- `getCSRFToken()`.  The argument is the value of the element named
`csrfmiddlewaretoken`, `none` when the page has no such element. -/
def getCSRFToken (field : Option String) : Except JSError String :=
  match field with
  | none => .error JSError.typeError
  | some value => .ok value

/-- `updateSubscriptionOnServer(subscription)`.  A subscription is given by its
JSON text, `none` standing for `null`; `outcome` is how the `fetch` and the
`response.json()` that follows it end, a failed `fetch` rejecting with a
`TypeError`.  Nothing in the body catches. -/
def updateSubscriptionOnServer (field : Option String) (outcome : FetchOutcome String)
    (subscription : Option String) (u : Upload) : Upload × Settled :=
  match subscription with
  | none => (u, Settled.fulfilled)
  | some sub =>
    match getCSRFToken field with
    | .error e => (u, Settled.rejected e)
    | .ok token =>
      let request : Request :=
        { url := "/notifications/save-subscription/"
          method := "POST"
          headers := [("Content-Type", "application/json"), ("X-CSRFToken", token)]
          body := "\x7b\"subscription\":" ++ sub ++ "\x7d" }
      let u1 := { u with requests := u.requests ++ [request] }
      match outcome with
      | .networkFailure => (u1, Settled.rejected JSError.typeError)
      | .invalidJSON => (u1, Settled.rejected JSError.syntaxError)
      | .json data =>
        ({ u1 with console := u1.console ++ ["Subscription saved: " ++ data] },
          Settled.fulfilled)

/-! ## `notification.js`: decoding the application server key

A JavaScript string is its sequence of UTF-16 code units.  The code units that
appear as literals below: 61 is `=`, 45 is `-`, 43 is `+`, 95 is `_` and 47 is
`/`. -/

/-- The code units of a string whose characters all lie in the basic plane. -/
def codeUnits (s : String) : List Nat :=
  s.toList.map Char.toNat

/-- The alphabet of standard base64, value `i` at position `i`. -/
def base64Alphabet : List Nat :=
  codeUnits "ABCDEFGHIJKLMNOPQRSTUVWXYZabcdefghijklmnopqrstuvwxyz0123456789+/"

/-- The value of a standard base64 character. -/
def base64Index (c : Nat) : Option Nat :=
  if c ∈ base64Alphabet then some (base64Alphabet.indexOf c) else none

/-- ASCII whitespace: tab, line feed, form feed, carriage return, space. -/
def isAsciiWhitespace (c : Nat) : Bool :=
  c = 9 || c = 10 || c = 12 || c = 13 || c = 32

/-- Removes one or two trailing `=` signs. -/
def stripPadding (data : List Nat) : List Nat :=
  if data.getLast? = some 61 then
    if data.dropLast.getLast? = some 61 then data.dropLast.dropLast else data.dropLast
  else
    data

/-- Reads sextets as a bit string and cuts it into bytes; a final group of
twelve or eighteen bits loses its last four or two. -/
def sextetsToBytes : List Nat → List Nat
  | a :: b :: c :: d :: rest =>
    let n := ((a * 64 + b) * 64 + c) * 64 + d
    n / 65536 :: n / 256 % 256 :: n % 256 :: sextetsToBytes rest
  | [a, b, c] =>
    let n := ((a * 64 + b) * 64 + c) / 4
    [n / 256, n % 256]
  | [a, b] => [(a * 64 + b) / 16]
  | _ => []

/-- Modelled from the spec: `window.atob` is a browser function, absent from
the repository; the spec calls it the byte-decode of standard base64.  This is
the forgiving-base64 decode the HTML standard prescribes for it: drop ASCII
whitespace, drop one or two trailing `=` from a string whose length is a
multiple of four, fail on a length of one more than a multiple of four or on a
character outside the alphabet, then turn sextets into bytes.  The result is a
string of code units below 256. -/
def atob (data : List Nat) : Except JSError (List Nat) :=
  let data := data.filter fun c => !isAsciiWhitespace c
  let data := if data.length % 4 = 0 then stripPadding data else data
  if data.length % 4 = 1 then
    .error JSError.invalidCharacterError
  else if data.any fun c => (base64Index c).isNone then
    .error JSError.invalidCharacterError
  else
    .ok (sextetsToBytes (data.map fun c => (base64Index c).getD 0))

/-- `s.replace(/c/g, r)` for a single character `c`. -/
def replaceAll (s : List Nat) (c r : Nat) : List Nat :=
  s.map fun x => if x = c then r else x

/-- The loop `for (let i = 0; i < rawData.length; ++i)` of `urlB64ToUint8Array`
from index `i` on, storing into a `Uint8Array`; `fuel` bounds the number of
iterations left. -/
def copyCharCodes (rawData : List Nat) : Nat → Nat → List Nat → List Nat
  | 0, _, outputArray => outputArray
  | fuel + 1, i, outputArray =>
    if i < rawData.length then
      copyCharCodes rawData fuel (i + 1) (outputArray.set i (rawData.getD i 0 % 256))
    else
      outputArray

/-- `urlB64ToUint8Array(base64String)`: pad with `=`, replace `-` by `+` and
`_` by `/`, decode with `atob`, copy the character codes into a `Uint8Array`.
An exception of `atob` propagates. -/
def urlB64ToUint8Array (base64String : List Nat) : Except JSError (List Nat) :=
  let padding := List.replicate ((4 - base64String.length % 4) % 4) 61
  let base64 := replaceAll (replaceAll (base64String ++ padding) 45 43) 95 47
  match atob base64 with
  | .error e => .error e
  | .ok rawData =>
    .ok (copyCharCodes rawData rawData.length 0 (List.replicate rawData.length 0))

/-! ## Base64url encoding, the reference the decoder is compared with -/

/-- The alphabet of base64url: `A-Z a-z 0-9 - _`. -/
def base64urlAlphabet : List Nat :=
  codeUnits "ABCDEFGHIJKLMNOPQRSTUVWXYZabcdefghijklmnopqrstuvwxyz0123456789-_"

/-- The sextets of a byte sequence, the last one filled up with zero bits. -/
def sextetsOf : List Nat → List Nat
  | a :: b :: c :: rest =>
    a / 4 :: (a % 4 * 16 + b / 16) :: (b % 16 * 4 + c / 64) :: c % 64 :: sextetsOf rest
  | [a, b] => [a / 4, a % 4 * 16 + b / 16, b % 16 * 4]
  | [a] => [a / 4, a % 4 * 16]
  | [] => []

/-- Unpadded base64url encoding of a byte sequence (RFC 4648, section 5). -/
def base64urlEncode (bytes : List Nat) : List Nat :=
  (sextetsOf bytes).map fun v => base64urlAlphabet.getD v 0

/-- The standard base64 character that the two replacements make of the
base64url character of value `v`. -/
def standardChar (v : Nat) : Nat :=
  let c := base64urlAlphabet.getD v 0
  let c1 := if c = 45 then 43 else c
  if c1 = 95 then 47 else c1

/-! ## Reading the rendered markup -/

/-- The string `s` starts with `t`. -/
def beginsWith (s t : String) : Prop :=
  t.data <+: s.data

/-- The string `s` ends with `t`. -/
def finishesWith (s t : String) : Prop :=
  t.data <:+ s.data

/-- The string `t` occurs in `s`. -/
def includes (s t : String) : Prop :=
  t.data <:+: s.data

instance (s t : String) : Decidable (beginsWith s t) :=
  inferInstanceAs (Decidable (t.data <+: s.data))

instance (s t : String) : Decidable (finishesWith s t) :=
  inferInstanceAs (Decidable (t.data <:+ s.data))

instance (s t : String) : Decidable (includes s t) :=
  inferInstanceAs (Decidable (t.data <:+: s.data))

/-- The rank span of a row: its class and the rank it shows. -/
def rankSpan (rankClass : String) (rank : Nat) : String :=
  "<span class=\"text-2xl font-bold " ++ rankClass ++ "\">"
    ++ "\n                            " ++ naturalToString rank
    ++ "\n                        </span>"

/-- The opening tag of a rank span with the top-ranked class. -/
def topRankedTag : String :=
  "<span class=\"text-2xl font-bold " ++ "text-yellow-400" ++ "\">"

/-- The crest image of a row. -/
def crestImage (crest name : String) : String :=
  "<img src=\"" ++ crest ++ "\" alt=\"" ++ name ++ "\" class=\"w-10 h-10 object-contain\">"

/-- The heading of a row. -/
def nameHeading (name : String) : String :=
  "<h3 class=\"font-semibold\">" ++ name ++ "</h3>"

/-- The points line of a row. -/
def pointsLine (points : Int) : String :=
  "<p class=\"text-sm text-gray-400\">" ++ numberToString points ++ " points</p>"

/-- Whether a row starts with a top-ranked rank span and ends with the trophy
in front of the closing text. -/
def isTopRanked (row : String) : Bool :=
  decide (beginsWith row (rowOpen ++ topRankedTag)) &&
    decide (finishesWith row (trophy ++ rowClose))

/-- Whether a row has the plain rank class and its closing text follows the
inner block with no marker in between. -/
def isPlain (row : String) : Bool :=
  decide (beginsWith row (rowOpen ++ "<span class=\"text-2xl font-bold " ++ "text-gray-300"
      ++ "\">")) &&
    decide (finishesWith row ("</div>\n                    " ++ rowClose))

/-! ## Sample inputs -/

/-- A browser with sockets and notifications, on an `https` page. -/
def sampleWindow : Window :=
  { webSocket := true, protocol := "https:", host := "evoke.example",
    notificationManager := true, notificationGranted := true }

/-- A document with an empty leaderboard and a hidden badge. -/
def sampleDocument : Document :=
  { leaderboard := some "", badge := some { textContent := "", classList := ["hidden"] } }

/-- The page right after `new RealTimeManager()`. -/
def samplePage : World :=
  construct sampleWindow sampleDocument

/-- The four houses of the leaderboard example. -/
def fourHouses : List LeaderboardEntry :=
  [{ name := "Gryffindor", points := 100, crest := "/crests/gryffindor.png" },
   { name := "Slytherin", points := 90, crest := "/crests/slytherin.png" },
   { name := "Hufflepuff", points := 80, crest := "/crests/hufflepuff.png" },
   { name := "Ravenclaw", points := 70, crest := "/crests/ravenclaw.png" }]

/-- A message of a kind the page does not know. -/
def unknownKind : InboundMessage :=
  { type := JSValue.string "unknown_kind", data := none, message := JSValue.undefined }

/-- A page without the leaderboard element and without the badge. -/
def barePage : World :=
  construct sampleWindow { leaderboard := none, badge := none }

/-- An entry whose name is the markup of the trophy. -/
def trophyNamed : LeaderboardEntry :=
  { name := trophy, points := 60, crest := "/crests/other.png" }

/-- The delays of five reconnects in a row. -/
def backoffSchedule : List Nat :=
  [2000, 4000, 8000, 16000, 30000]

/-! ## Reconnecting: frame lemmas -/

theorem reconnectDelay_succ_of_lt {k : Nat} (hk : k < 5) :
    backoffSchedule.drop k = reconnectDelay (k + 1) :: backoffSchedule.drop (k + 1) := by
  interval_cases k <;> decide

theorem reconnectDelay_one : reconnectDelay (0 + 1) = 2000 := by
  decide

theorem attemptReconnect_of_lt {w : World}
    (h : w.manager.reconnectAttempts < w.manager.maxReconnectAttempts) :
    (attemptReconnect w).manager =
        { w.manager with reconnectAttempts := w.manager.reconnectAttempts + 1 } ∧
      (attemptReconnect w).timeouts = w.timeouts ++
        [{ callback := Callback.connectWebSocket,
           delay := min (1000 * 2 ^ (w.manager.reconnectAttempts + 1)) 30000 }] := by
  simp [attemptReconnect, h, reconnectDelay]

theorem attemptReconnect_of_not_lt {w : World}
    (h : ¬ w.manager.reconnectAttempts < w.manager.maxReconnectAttempts) :
    attemptReconnect w = w := by
  simp [attemptReconnect, h]

theorem updateLeaderboard_frame {d : Option (List LeaderboardEntry)} {w w1 : World}
    (h : updateLeaderboard d w = .ok w1) :
    w1.manager = w.manager ∧ w1.timeouts = w.timeouts := by
  unfold updateLeaderboard at h
  split at h
  · cases h; exact ⟨rfl, rfl⟩
  · split at h
    · cases h
    · cases h; exact ⟨rfl, rfl⟩

theorem handleWebSocketMessage_frame {win : Window} {data : Parsed} {w w1 : World}
    (h : handleWebSocketMessage win data w = .ok w1) :
    w1.manager = w.manager ∧ reconnectDelays w1 = reconnectDelays w := by
  unfold handleWebSocketMessage at h
  split at h
  · cases h
  · split at h
    · obtain ⟨h1, h2⟩ := updateLeaderboard_frame h
      exact ⟨h1, by simp [reconnectDelays, h2]⟩
    · split at h
      · cases h
        refine ⟨?_, ?_⟩
        · simp only [showNewNotification, showToast, showLocalNotification]
          split <;> [split; skip] <;> rfl
        · simp only [showNewNotification, showToast, showLocalNotification]
          split <;> [split; skip] <;> simp [reconnectDelays, List.filter_append]
      · cases h; exact ⟨rfl, rfl⟩

/-- Every event other than `open` and `close` leaves the counter, the limit
and the scheduled reconnects alone. -/
theorem handle_frame (win : Window) (w : World) (e : Event)
    (ho : e ≠ Event.open) (hc : e ≠ Event.close) :
    (handle win w e).manager.reconnectAttempts = w.manager.reconnectAttempts ∧
      (handle win w e).manager.maxReconnectAttempts = w.manager.maxReconnectAttempts ∧
      reconnectDelays (handle win w e) = reconnectDelays w := by
  cases e with
  | «open» => exact absurd rfl ho
  | close => exact absurd rfl hc
  | error => exact ⟨rfl, rfl, rfl⟩
  | message d =>
    simp only [handle]
    split
    · rename_i w1 h
      cases d with
      | none => simp [onmessage] at h
      | some m =>
        obtain ⟨h1, h2⟩ := handleWebSocketMessage_frame h
        simp [h1, h2]
    · exact ⟨rfl, rfl, rfl⟩
  | timeout cb =>
    cases cb with
    | connectWebSocket =>
      simp only [handle, connectWebSocket]
      split <;> exact ⟨rfl, rfl, rfl⟩
    | removeToast t => exact ⟨rfl, rfl, rfl⟩
  | leaderboardPoll o =>
    simp only [handle, pollLeaderboard]
    split
    · split
      · rename_i w1 h
        obtain ⟨h1, h2⟩ := updateLeaderboard_frame h
        simp [h1, reconnectDelays, h2]
      · exact ⟨rfl, rfl, rfl⟩
    · exact ⟨rfl, rfl, rfl⟩
  | notificationPoll o =>
    simp only [handle, pollNotifications, updateNotificationBadge]
    split
    · split <;> exact ⟨rfl, rfl, rfl⟩
    · exact ⟨rfl, rfl, rfl⟩

theorem onclose_of_lt {w : World}
    (h : w.manager.reconnectAttempts < w.manager.maxReconnectAttempts) :
    (onclose w).manager.reconnectAttempts = w.manager.reconnectAttempts + 1 ∧
      (onclose w).manager.maxReconnectAttempts = w.manager.maxReconnectAttempts ∧
      reconnectDelays (onclose w) =
        reconnectDelays w ++ [reconnectDelay (w.manager.reconnectAttempts + 1)] := by
  simp [onclose, attemptReconnect, h, reconnectDelays, List.filter_append]

theorem onclose_of_not_lt {w : World}
    (h : ¬ w.manager.reconnectAttempts < w.manager.maxReconnectAttempts) :
    (onclose w).manager = w.manager ∧ (onclose w).timeouts = w.timeouts := by
  simp [onclose, attemptReconnect, h]

/-- The counter never passes the limit, and the limit never moves. -/
theorem handle_invariant (win : Window) (w : World) (e : Event)
    (h : w.manager.reconnectAttempts ≤ w.manager.maxReconnectAttempts ∧
      w.manager.maxReconnectAttempts = 5) :
    (handle win w e).manager.reconnectAttempts ≤ (handle win w e).manager.maxReconnectAttempts ∧
      (handle win w e).manager.maxReconnectAttempts = 5 := by
  by_cases ho : e = Event.open
  · subst ho
    simp [handle, onopen, h.2]
  · by_cases hc : e = Event.close
    · subst hc
      by_cases hlt : w.manager.reconnectAttempts < w.manager.maxReconnectAttempts
      · obtain ⟨h1, h2, -⟩ := onclose_of_lt hlt
        simp only [handle, h1, h2]
        omega
      · obtain ⟨h1, -⟩ := onclose_of_not_lt hlt
        simp only [handle, h1]
        exact h
    · obtain ⟨h1, h2, -⟩ := handle_frame win w e ho hc
      rw [h1, h2]
      exact h

theorem run_invariant (win : Window) (events : List Event) :
    ∀ w : World,
      w.manager.reconnectAttempts ≤ w.manager.maxReconnectAttempts ∧
        w.manager.maxReconnectAttempts = 5 →
      (run win w events).manager.reconnectAttempts ≤
          (run win w events).manager.maxReconnectAttempts ∧
        (run win w events).manager.maxReconnectAttempts = 5 := by
  induction events with
  | nil => intro w h; exact h
  | cons e es ih =>
    intro w h
    exact ih (handle win w e) (handle_invariant win w e h)

theorem construct_manager (win : Window) (doc : Document) :
    (construct win doc).manager.reconnectAttempts = 0 ∧
      (construct win doc).manager.maxReconnectAttempts = 5 ∧
      (construct win doc).timeouts = [] := by
  simp only [construct, setupPolling, connectWebSocket]
  split <;> exact ⟨rfl, rfl, rfl⟩

/-- A run without `open` schedules one reconnect per close until the counter
reaches the limit, with the delays of the backoff schedule. -/
theorem run_without_open (win : Window) (events : List Event) :
    ∀ w : World,
      w.manager.maxReconnectAttempts = 5 → w.manager.reconnectAttempts ≤ 5 →
      Event.open ∉ events →
      (run win w events).manager.maxReconnectAttempts = 5 ∧
        (run win w events).manager.reconnectAttempts =
          min (w.manager.reconnectAttempts + closes events) 5 ∧
        reconnectDelays (run win w events) = reconnectDelays w ++
          (backoffSchedule.drop w.manager.reconnectAttempts).take (closes events) := by
  induction events with
  | nil =>
    intro w hmax hle _
    simp [run, closes, hmax]
    omega
  | cons e es ih =>
    intro w hmax hle hno
    have hne : e ≠ Event.open := fun h => hno (by simp [h])
    have hes : Event.open ∉ es := fun h => hno (by simp [h])
    by_cases hc : e = Event.close
    · subst hc
      have hcl : closes (Event.close :: es) = closes es + 1 := by simp [closes]
      by_cases hlt : w.manager.reconnectAttempts < w.manager.maxReconnectAttempts
      · obtain ⟨h1, h2, h3⟩ := onclose_of_lt hlt
        have hk : w.manager.reconnectAttempts < 5 := by omega
        obtain ⟨i1, i2, i3⟩ := ih (onclose w) (by rw [h2, hmax]) (by rw [h1]; omega) hes
        refine ⟨i1, ?_, ?_⟩
        · show (run win (onclose w) es).manager.reconnectAttempts = _
          rw [i2, h1, hcl]
          omega
        · show reconnectDelays (run win (onclose w) es) = _
          rw [i3, h3, h1, hcl, reconnectDelay_succ_of_lt hk]
          simp
      · obtain ⟨h1, h2⟩ := onclose_of_not_lt hlt
        have hk : w.manager.reconnectAttempts = 5 := by omega
        obtain ⟨i1, i2, i3⟩ := ih (onclose w) (by rw [h1, hmax]) (by rw [h1]; omega) hes
        refine ⟨i1, ?_, ?_⟩
        · show (run win (onclose w) es).manager.reconnectAttempts = _
          rw [i2, h1, hcl]
          omega
        · show reconnectDelays (run win (onclose w) es) = _
          rw [i3, h1, hk]
          simp [reconnectDelays, h2, backoffSchedule]
    · obtain ⟨h1, h2, h3⟩ := handle_frame win w e hne hc
      have hcl : closes (e :: es) = closes es := by simp [closes, hc]
      obtain ⟨i1, i2, i3⟩ := ih (handle win w e) (by rw [h2, hmax]) (by rw [h1]; exact hle) hes
      refine ⟨i1, ?_, ?_⟩
      · show (run win (handle win w e) es).manager.reconnectAttempts = _
        rw [i2, h1, hcl]
      · show reconnectDelays (run win (handle win w e) es) = _
        rw [i3, h3, h1, hcl]

/-! ## Number to string: lemmas -/

theorem excessBits_div : ∀ (fuel N : Nat), 2 ^ 52 ≤ N → 2 ^ 52 ≤ N / 2 ^ excessBits N fuel
  | 0, N, h => by simpa [excessBits] using h
  | fuel + 1, N, h => by
    unfold excessBits
    split
    · simpa using h
    · rename_i hN
      have h2 : 2 ^ 52 ≤ N / 2 := by omega
      have ih := excessBits_div fuel (N / 2) h2
      have hp : 2 ^ (excessBits (N / 2) fuel + 1) = 2 * 2 ^ excessBits (N / 2) fuel := by
        rw [pow_succ, mul_comm]
      rw [hp, ← Nat.div_div_eq_div_mul]
      exact ih

theorem excessBits_small {N : Nat} (h : N < 2 ^ 53) : excessBits N N = 0 := by
  cases N with
  | zero => rfl
  | succ n =>
    unfold excessBits
    rw [if_pos h]

theorem excessBits_pos {N : Nat} (h : 2 ^ 53 ≤ N) : 1 ≤ excessBits N N := by
  cases N with
  | zero => simp at h
  | succ n =>
    unfold excessBits
    rw [if_neg (by omega)]
    omega

theorem roundToDouble_of_lt {N : Nat} (h : N < 2 ^ 53) : roundToDouble N = N := by
  simp [roundToDouble, excessBits_small h, Nat.mod_one]

theorem roundToDouble_ge {N : Nat} (h : 2 ^ 53 ≤ N) : 2 ^ 53 ≤ roundToDouble N := by
  have he := excessBits_pos h
  have hq := excessBits_div N N (by omega)
  have hp : 2 ≤ 2 ^ excessBits N N := by
    calc 2 = 2 ^ 1 := by norm_num
      _ ≤ 2 ^ excessBits N N := Nat.pow_le_pow_right (by norm_num) he
  have hbase : 2 ^ 53 ≤ N / 2 ^ excessBits N N * 2 ^ excessBits N N := by
    calc 2 ^ 53 = 2 ^ 52 * 2 := by norm_num
      _ ≤ N / 2 ^ excessBits N N * 2 ^ excessBits N N := Nat.mul_le_mul hq hp
  have hstep : N / 2 ^ excessBits N N * 2 ^ excessBits N N ≤
      (N / 2 ^ excessBits N N + 1) * 2 ^ excessBits N N :=
    Nat.mul_le_mul_right _ (Nat.le_succ _)
  unfold roundToDouble
  simp only
  split
  · exact hbase
  · split
    · exact le_trans hbase hstep
    · split
      · exact hbase
      · exact le_trans hbase hstep

theorem eq_of_roundToDouble_eq {c x : Nat} (hx : x < 2 ^ 53) (h : roundToDouble c = x) :
    c = x := by
  by_cases hc : c < 2 ^ 53
  · rw [roundToDouble_of_lt hc] at h
    exact h
  · have := roundToDouble_ge (Nat.le_of_not_lt hc)
    omega

theorem shortestDecimal_of_lt {x : Nat} (hx : x < 2 ^ 53) : ∀ j, shortestDecimal x j = x
  | 0 => rfl
  | j + 1 => by
    have ih := shortestDecimal_of_lt hx j
    unfold shortestDecimal
    simp only
    split
    · rename_i hboth
      simp only [Bool.and_eq_true, decide_eq_true_eq] at hboth
      have h1 := eq_of_roundToDouble_eq hx hboth.1.2
      have h2 := eq_of_roundToDouble_eq hx hboth.2
      split
      · exact h1
      · split
        · exact h2
        · split
          · exact h1
          · exact h2
    · split
      · rename_i hl
        simp only [Bool.and_eq_true, decide_eq_true_eq] at hl
        exact eq_of_roundToDouble_eq hx hl.2
      · split
        · rename_i hu
          simp only [decide_eq_true_eq] at hu
          exact eq_of_roundToDouble_eq hx hu
        · exact ih

theorem naturalToString_of_lt {x : Nat} (hx : x < 2 ^ 53) : naturalToString x = toString x := by
  unfold naturalToString
  simp only [shortestDecimal_of_lt hx]
  rw [if_pos]
  calc x < 2 ^ 53 := hx
    _ < 10 ^ 21 := by norm_num

theorem numberToString_of_lt (n : Int) (h : n.natAbs < 2 ^ 53) :
    numberToString n = toString n := by
  cases n with
  | ofNat m =>
    have : ¬ (Int.ofNat m < 0) := by simp
    simp only [numberToString, this, if_false]
    exact naturalToString_of_lt h
  | negSucc m =>
    have : Int.negSucc m < 0 := Int.negSucc_lt_zero m
    simp only [numberToString, this, if_true]
    rw [naturalToString_of_lt h]
    rfl

theorem excessBits_enough : ∀ (fuel N : Nat), N < 2 ^ 53 * 2 ^ fuel →
    N / 2 ^ excessBits N fuel < 2 ^ 53
  | 0, N, h => by simpa [excessBits] using h
  | fuel + 1, N, h => by
    unfold excessBits
    split
    · rename_i hN
      simpa using hN
    · have h2 : N / 2 < 2 ^ 53 * 2 ^ fuel := by
        rw [pow_succ] at h
        omega
      have ih := excessBits_enough fuel (N / 2) h2
      have hp : 2 ^ (excessBits (N / 2) fuel + 1) = 2 * 2 ^ excessBits (N / 2) fuel := by
        rw [pow_succ, mul_comm]
      rw [hp, ← Nat.div_div_eq_div_mul]
      exact ih

/-- The fuel of `roundToDouble` suffices: the significand it rounds has at
most 53 bits. -/
theorem excessBits_fits (N : Nat) : N / 2 ^ excessBits N N < 2 ^ 53 := by
  apply excessBits_enough
  calc N < 2 ^ N := Nat.lt_two_pow N
    _ = 1 * 2 ^ N := (Nat.one_mul _).symm
    _ ≤ 2 ^ 53 * 2 ^ N := Nat.mul_le_mul_right _ (by norm_num)

/-! ## Rendered rows: lemmas -/

theorem infix_skip {t l : List Char} (a : List Char) (h : t <:+: l) : t <:+: a ++ l := by
  obtain ⟨u, v, huv⟩ := h
  exact ⟨a ++ u, v, by simp [← huv]⟩

theorem prefix_mismatch {a b u v : List Char} (n : Nat) (ha : n ≤ a.length)
    (hb : n ≤ b.length) (hne : a.take n ≠ b.take n) : ¬ (a ++ u <+: b ++ v) := by
  rintro ⟨t, ht⟩
  apply hne
  have h := congrArg (List.take n) ht
  rw [List.append_assoc, List.take_append_of_le_length ha,
    List.take_append_of_le_length hb] at h
  exact h

theorem suffix_mismatch {a b u c : List Char} (n : Nat) (ha : n ≤ a.length)
    (hb : n ≤ b.length) (hne : a.reverse.take n ≠ b.reverse.take n) :
    ¬ (a ++ c <:+ u ++ b ++ c) := by
  intro h
  have h1 := List.reverse_prefix.2 h
  simp only [List.reverse_append, List.append_assoc, List.prefix_append_right_inj] at h1
  have h2 : a.reverse ++ [] <+: b.reverse ++ u.reverse := by simpa using h1
  exact prefix_mismatch n (by simpa using ha) (by simpa using hb) hne h2

theorem renderRow_rankSpan (i : Nat) (e : LeaderboardEntry) :
    beginsWith (renderRow i e)
      (rowOpen ++ rankSpan (if i < 3 then "text-yellow-400" else "text-gray-300") (i + 1)) := by
  simp only [beginsWith, renderRow, rankSpan, String.data_append, List.append_assoc,
    List.prefix_append_right_inj]
  exact List.prefix_append _ _

theorem renderRow_crestImage (i : Nat) (e : LeaderboardEntry) :
    includes (renderRow i e) (crestImage e.crest e.name) := by
  simp only [includes, renderRow, crestImage, String.data_append, List.append_assoc]
  iterate 8 apply infix_skip
  apply List.IsPrefix.isInfix
  simp only [List.prefix_append_right_inj]
  exact List.prefix_append _ _

theorem renderRow_nameHeading (i : Nat) (e : LeaderboardEntry) :
    includes (renderRow i e) (nameHeading e.name) := by
  simp only [includes, renderRow, nameHeading, String.data_append, List.append_assoc]
  iterate 14 apply infix_skip
  apply List.IsPrefix.isInfix
  simp only [List.prefix_append_right_inj]
  exact List.prefix_append _ _

theorem renderRow_pointsLine (i : Nat) (e : LeaderboardEntry) :
    includes (renderRow i e) (pointsLine e.points) := by
  simp only [includes, renderRow, pointsLine, String.data_append, List.append_assoc]
  iterate 18 apply infix_skip
  apply List.IsPrefix.isInfix
  simp only [List.prefix_append_right_inj]
  exact List.prefix_append _ _

theorem renderRow_topRankedTag (i : Nat) (e : LeaderboardEntry) :
    beginsWith (renderRow i e) (rowOpen ++ topRankedTag) ↔ i < 3 := by
  constructor
  · intro h
    by_contra h3
    simp only [beginsWith, renderRow, topRankedTag, if_neg h3, String.data_append,
      List.append_assoc, List.prefix_append_right_inj] at h
    exact prefix_mismatch 6 (by decide) (by decide) (by decide) h
  · intro h3
    simp only [beginsWith, renderRow, topRankedTag, if_pos h3, String.data_append,
      List.append_assoc, List.prefix_append_right_inj]
    exact List.prefix_append _ _

theorem renderRow_trophy (i : Nat) (e : LeaderboardEntry) :
    finishesWith (renderRow i e) (trophy ++ rowClose) ↔ i < 3 := by
  constructor
  · intro h
    by_contra h3
    simp only [finishesWith, renderRow, if_neg h3, String.data_append] at h
    rw [List.append_nil] at h
    exact suffix_mismatch 1 (by decide) (by decide) (by decide) h
  · intro h3
    simp only [finishesWith, renderRow, if_pos h3, String.data_append]
    rw [List.append_assoc]
    exact List.suffix_append _ _

theorem renderRow_name (i : Nat) (e : LeaderboardEntry) :
    includes (renderRow i e) e.name := by
  simp only [includes, renderRow, String.data_append, List.append_assoc]
  iterate 15 apply infix_skip
  exact (List.prefix_append _ _).isInfix

theorem renderRow_plainTag (i : Nat) (e : LeaderboardEntry) :
    beginsWith (renderRow i e)
        (rowOpen ++ "<span class=\"text-2xl font-bold " ++ "text-gray-300" ++ "\">") ↔
      ¬ i < 3 := by
  constructor
  · intro h h3
    simp only [beginsWith, renderRow, if_pos h3, String.data_append,
      List.append_assoc, List.prefix_append_right_inj] at h
    exact prefix_mismatch 6 (by decide) (by decide) (by decide) h
  · intro h3
    simp only [beginsWith, renderRow, if_neg h3, String.data_append,
      List.append_assoc, List.prefix_append_right_inj]
    exact List.prefix_append _ _

theorem isTopRanked_renderRow (i : Nat) (e : LeaderboardEntry) :
    isTopRanked (renderRow i e) = decide (i < 3) := by
  by_cases h3 : i < 3
  · simp [isTopRanked, (renderRow_topRankedTag i e).2 h3, (renderRow_trophy i e).2 h3, h3]
  · have h := mt (renderRow_topRankedTag i e).1 h3
    simp [isTopRanked, h, h3]

theorem isPlain_renderRow_of_lt (i : Nat) (e : LeaderboardEntry) (h3 : i < 3) :
    isPlain (renderRow i e) = false := by
  have h : ¬ beginsWith (renderRow i e)
      (rowOpen ++ "<span class=\"text-2xl font-bold " ++ "text-gray-300" ++ "\">") :=
    fun hb => (renderRow_plainTag i e).1 hb h3
  simp [isPlain, h]

theorem mapIdx_fourHouses (f : Nat → LeaderboardEntry → String) :
    fourHouses.mapIdx f =
      [f 0 { name := "Gryffindor", points := 100, crest := "/crests/gryffindor.png" },
       f 1 { name := "Slytherin", points := 90, crest := "/crests/slytherin.png" },
       f 2 { name := "Hufflepuff", points := 80, crest := "/crests/hufflepuff.png" },
       f 3 { name := "Ravenclaw", points := 70, crest := "/crests/ravenclaw.png" }] :=
  rfl

theorem renderRow_plain (i : Nat) (e : LeaderboardEntry) (h3 : ¬ i < 3) :
    isPlain (renderRow i e) = true := by
  simp only [isPlain, Bool.and_eq_true, decide_eq_true_eq]
  constructor
  · simp only [beginsWith, renderRow, if_neg h3, String.data_append, List.append_assoc,
      List.prefix_append_right_inj]
    exact List.prefix_append _ _
  · simp only [finishesWith, renderRow, if_neg h3, String.data_append]
    rw [List.append_nil, List.append_assoc]
    exact List.suffix_append _ _

/-! ## Decoding the key: lemmas -/

theorem standardChar_spec :
    ∀ v, v < 64 → base64Index (standardChar v) = some v ∧ standardChar v ≠ 61 ∧
      isAsciiWhitespace (standardChar v) = false := by
  decide

theorem base64Index_lt {c v : Nat} (h : base64Index c = some v) : v < 64 := by
  unfold base64Index at h
  split at h
  · rename_i hm
    cases h
    exact List.indexOf_lt_length.2 hm
  · cases h

theorem replaceAll_encode (bytes : List Nat) (k : Nat) :
    replaceAll (replaceAll (base64urlEncode bytes ++ List.replicate k 61) 45 43) 95 47 =
      (sextetsOf bytes).map standardChar ++ List.replicate k 61 := by
  simp [replaceAll, base64urlEncode, standardChar, List.map_append, List.map_replicate]

theorem sextetsOf_lt : ∀ (bytes : List Nat), (∀ x ∈ bytes, x < 256) →
    ∀ v ∈ sextetsOf bytes, v < 64
  | a :: b :: c :: rest, h => by
    intro v hv
    have ha : a < 256 := h a (by simp)
    have hb : b < 256 := h b (by simp)
    have hc : c < 256 := h c (by simp)
    simp only [sextetsOf, List.mem_cons] at hv
    rcases hv with rfl | rfl | rfl | rfl | hv
    · omega
    · omega
    · omega
    · omega
    · exact sextetsOf_lt rest (fun x hx => h x (by simp [hx])) v hv
  | [a, b], h => by
    intro v hv
    have ha : a < 256 := h a (by simp)
    have hb : b < 256 := h b (by simp)
    simp only [sextetsOf, List.mem_cons, List.mem_singleton] at hv
    rcases hv with rfl | rfl | rfl | hv
    · omega
    · omega
    · omega
    · simp at hv
  | [a], h => by
    intro v hv
    have ha : a < 256 := h a (by simp)
    simp only [sextetsOf, List.mem_cons, List.mem_singleton] at hv
    rcases hv with rfl | rfl | hv
    · omega
    · omega
    · simp at hv
  | [], _ => by
    intro v hv
    simp [sextetsOf] at hv

theorem sextetsOf_length : ∀ (bytes : List Nat),
    (sextetsOf bytes).length % 4 = 0 ∨ (sextetsOf bytes).length % 4 = 2 ∨
      (sextetsOf bytes).length % 4 = 3
  | _ :: _ :: _ :: rest => by
    have ih := sextetsOf_length rest
    simp only [sextetsOf, List.length_cons]
    omega
  | [_, _] => by simp [sextetsOf]
  | [_] => by simp [sextetsOf]
  | [] => by simp [sextetsOf]

theorem sextetsToBytes_sextetsOf : ∀ (bytes : List Nat), (∀ x ∈ bytes, x < 256) →
    sextetsToBytes (sextetsOf bytes) = bytes
  | a :: b :: c :: rest, h => by
    have ha : a < 256 := h a (by simp)
    have hb : b < 256 := h b (by simp)
    have hc : c < 256 := h c (by simp)
    have ih := sextetsToBytes_sextetsOf rest (fun x hx => h x (by simp [hx]))
    simp only [sextetsOf, sextetsToBytes, ih]
    congr 1
    · omega
    · congr 1
      · omega
      · congr 1
        omega
  | [a, b], h => by
    have ha : a < 256 := h a (by simp)
    have hb : b < 256 := h b (by simp)
    simp only [sextetsOf, sextetsToBytes]
    congr 1
    · omega
    · congr 1
      omega
  | [a], h => by
    have ha : a < 256 := h a (by simp)
    simp only [sextetsOf, sextetsToBytes]
    congr 1
    omega
  | [], _ => by simp [sextetsOf, sextetsToBytes]

theorem copyCharCodes_eq (rawData : List Nat) :
    ∀ (fuel i : Nat) (out : List Nat), out.length = rawData.length →
      i + fuel = rawData.length →
      copyCharCodes rawData fuel i out = out.take i ++ (rawData.drop i).map (fun x => x % 256) := by
  intro fuel
  induction fuel with
  | zero =>
    intro i out hl hi
    have : i = rawData.length := by omega
    subst this
    simp [copyCharCodes, ← hl]
  | succ fuel ih =>
    intro i out hl hi
    have hlt : i < rawData.length := by omega
    have hlo : i < out.length := by omega
    have htake : (List.take i out).length = i := by
      rw [List.length_take]
      omega
    rw [copyCharCodes, if_pos hlt, ih (i + 1) _ (by simp [hl]) (by omega),
      List.set_eq_take_append_cons_drop, if_pos hlo, List.drop_eq_getElem_cons hlt,
      List.getD_eq_getElem _ _ hlt, List.take_append_eq_append_take, htake,
      List.take_of_length_le (by omega)]
    simp
    have hd := @List.drop_eq_getElem_cons _ i (List.map (fun x => x % 256) rawData)
      (by simpa using hlt)
    rw [hd, List.getElem_map]

theorem stripPadding_append (t : List Nat) (k : Nat) (hk : k ≤ 2)
    (ht : ∀ c ∈ t, c ≠ 61) : stripPadding (t ++ List.replicate k 61) = t := by
  have hlast : t.getLast? ≠ some 61 := by
    intro h
    obtain ⟨ys, rfl⟩ := List.getLast?_eq_some_iff.1 h
    exact ht 61 (by simp) rfl
  interval_cases k
  · simp [stripPadding, hlast]
  · simp [stripPadding, hlast]
  · have h2 : t ++ List.replicate 2 61 = (t ++ [61]) ++ [61] := by simp [List.replicate]
    rw [h2]
    simp [stripPadding]

theorem atob_padded (sextets : List Nat) (k : Nat) (hk : k ≤ 2)
    (hs : ∀ v ∈ sextets, v < 64) (hlen : (sextets.length + k) % 4 = 0) :
    atob (sextets.map standardChar ++ List.replicate k 61) = .ok (sextetsToBytes sextets) := by
  have hne : ∀ c ∈ sextets.map standardChar, c ≠ 61 := by
    intro c hc
    obtain ⟨v, hv, rfl⟩ := List.mem_map.1 hc
    exact (standardChar_spec v (hs v hv)).2.1
  have hfilter : (sextets.map standardChar ++ List.replicate k 61).filter
      (fun c => !isAsciiWhitespace c) = sextets.map standardChar ++ List.replicate k 61 := by
    rw [List.filter_eq_self]
    intro c hc
    rcases List.mem_append.1 hc with hc | hc
    · obtain ⟨v, hv, rfl⟩ := List.mem_map.1 hc
      simp [(standardChar_spec v (hs v hv)).2.2]
    · rw [(List.mem_replicate.1 hc).2]
      decide
  have hmap : (sextets.map standardChar).map (fun c => (base64Index c).getD 0) = sextets := by
    rw [List.map_map]
    conv => rhs; rw [← List.map_id sextets]
    apply List.map_congr_left
    intro v hv
    simp [(standardChar_spec v (hs v hv)).1]
  have hany : (sextets.map standardChar).any (fun c => (base64Index c).isNone) = false := by
    rw [List.any_eq_false]
    intro c hc
    obtain ⟨v, hv, rfl⟩ := List.mem_map.1 hc
    simp [(standardChar_spec v (hs v hv)).1]
  have hlen4 : (sextets.map standardChar ++ List.replicate k 61).length % 4 = 0 := by
    simpa using hlen
  have hlen1 : ¬ (sextets.map standardChar).length % 4 = 1 := by
    simp only [List.length_map]
    omega
  simp only [atob, hfilter, hlen4, if_true, stripPadding_append _ k hk hne, hlen1, if_false,
    hany, hmap]
  rfl

theorem sextetsToBytes_lt : ∀ (sextets : List Nat), (∀ v ∈ sextets, v < 64) →
    ∀ x ∈ sextetsToBytes sextets, x < 256
  | a :: b :: c :: d :: rest, h => by
    intro x hx
    have ha : a < 64 := h a (by simp)
    have hb : b < 64 := h b (by simp)
    have hc : c < 64 := h c (by simp)
    have hd : d < 64 := h d (by simp)
    simp only [sextetsToBytes, List.mem_cons] at hx
    rcases hx with rfl | rfl | rfl | hx
    · omega
    · omega
    · omega
    · exact sextetsToBytes_lt rest (fun v hv => h v (by simp [hv])) x hx
  | [a, b, c], h => by
    intro x hx
    have ha : a < 64 := h a (by simp)
    have hb : b < 64 := h b (by simp)
    have hc : c < 64 := h c (by simp)
    simp only [sextetsToBytes, List.mem_cons, List.mem_singleton] at hx
    rcases hx with rfl | rfl | hx
    · omega
    · omega
    · simp at hx
  | [a, b], h => by
    intro x hx
    have ha : a < 64 := h a (by simp)
    have hb : b < 64 := h b (by simp)
    simp only [sextetsToBytes, List.mem_singleton, List.mem_cons] at hx
    rcases hx with rfl | hx
    · omega
    · simp at hx
  | [_], _ => by
    intro x hx
    simp [sextetsToBytes] at hx
  | [], _ => by
    intro x hx
    simp [sextetsToBytes] at hx

theorem atob_lt {data rawData : List Nat} (h : atob data = .ok rawData) :
    ∀ x ∈ rawData, x < 256 := by
  unfold atob at h
  simp only at h
  generalize (if (List.filter (fun c => !isAsciiWhitespace c) data).length % 4 = 0 then
    stripPadding (List.filter (fun c => !isAsciiWhitespace c) data)
    else List.filter (fun c => !isAsciiWhitespace c) data) = d at h
  by_cases h1 : d.length % 4 = 1
  · rw [if_pos h1] at h
    cases h
  · by_cases h2 : (d.any fun c => (base64Index c).isNone) = true
    · rw [if_neg h1, if_pos h2] at h
      cases h
    · rw [if_neg h1, if_neg h2] at h
      cases h
      apply sextetsToBytes_lt
      intro v hv
      obtain ⟨c, hc, rfl⟩ := List.mem_map.1 hv
      have hsome : ∀ x ∈ d, ¬ base64Index x = none := by simpa using h2
      cases hidx : base64Index c with
      | none => exact absurd hidx (hsome c hc)
      | some v => simpa using base64Index_lt hidx

theorem copyCharCodes_all (rawData : List Nat) :
    copyCharCodes rawData rawData.length 0 (List.replicate rawData.length 0) =
      rawData.map (fun x => x % 256) := by
  rw [copyCharCodes_eq rawData rawData.length 0 _ (by simp) (by simp)]
  simp

theorem urlB64ToUint8Array_eq_atob (base64String : List Nat) :
    urlB64ToUint8Array base64String =
      atob (replaceAll (replaceAll
        (base64String ++ List.replicate ((4 - base64String.length % 4) % 4) 61) 45 43) 95 47) := by
  unfold urlB64ToUint8Array
  simp only
  split
  · rename_i e h
    rw [h]
  · rename_i rawData h
    rw [h, copyCharCodes_all]
    congr 1
    conv => rhs; rw [← List.map_id rawData]
    apply List.map_congr_left
    intro x hx
    exact Nat.mod_eq_of_lt (atob_lt h x hx)

/-! ## Reconnecting: the claims -/

/-- C1: when `attemptReconnect` raises the counter to `n` with `1 ≤ n ≤ 5`, the
timer it schedules has delay `min (1000 * 2 ^ n) 30000`; for `n = 1` that is
2000 ms and for `n = 5` it is 30000 ms, the cap on 32000. -/
theorem attemptReconnect_delay (w : World) (n : Nat)
    (hn : w.manager.reconnectAttempts + 1 = n) (h5 : n ≤ 5)
    (hmax : w.manager.maxReconnectAttempts = 5) :
    (attemptReconnect w).manager.reconnectAttempts = n ∧
      (attemptReconnect w).timeouts = w.timeouts ++
        [{ callback := Callback.connectWebSocket, delay := min (1000 * 2 ^ n) 30000 }] ∧
      (n = 1 → (attemptReconnect w).timeouts = w.timeouts ++
        [{ callback := Callback.connectWebSocket, delay := 2000 }]) ∧
      (n = 5 → 1000 * 2 ^ n = 32000 ∧ (attemptReconnect w).timeouts = w.timeouts ++
        [{ callback := Callback.connectWebSocket, delay := 30000 }]) := by
  have hlt : w.manager.reconnectAttempts < w.manager.maxReconnectAttempts := by omega
  obtain ⟨h1, h2⟩ := attemptReconnect_of_lt hlt
  rw [hn] at h1 h2
  refine ⟨by rw [h1], h2, ?_, ?_⟩
  · intro h; rw [h2, h]; rfl
  · intro h; rw [h2, h]; exact ⟨rfl, rfl⟩

theorem attemptReconnect_delay_witness :
    samplePage.manager.reconnectAttempts + 1 = 1 ∧ 1 ≤ 5 ∧
      samplePage.manager.maxReconnectAttempts = 5 ∧
      (attemptReconnect samplePage).timeouts =
        [{ callback := Callback.connectWebSocket, delay := 2000 }] :=
  ⟨rfl, by decide, rfl,
    ((attemptReconnect_delay samplePage 1 rfl (by decide) rfl).2.2.1 rfl)⟩

/-- C2, as the code has it: with the counter at `k` below the limit,
`attemptReconnect` first raises the counter to `k + 1` and then schedules the
reconnect with delay `min (1000 * 2 ^ (k + 1)) 30000`, computed from the raised
counter. -/
theorem attemptReconnect_increments_first (w : World) (k : Nat)
    (hk : w.manager.reconnectAttempts = k) (hlt : k < w.manager.maxReconnectAttempts) :
    (attemptReconnect w).manager.reconnectAttempts = k + 1 ∧
      (attemptReconnect w).manager.maxReconnectAttempts = w.manager.maxReconnectAttempts ∧
      (attemptReconnect w).manager.socket = w.manager.socket ∧
      (attemptReconnect w).timeouts = w.timeouts ++
        [{ callback := Callback.connectWebSocket, delay := min (1000 * 2 ^ (k + 1)) 30000 }] := by
  obtain ⟨h1, h2⟩ := attemptReconnect_of_lt (hk ▸ hlt)
  rw [hk] at h1 h2
  exact ⟨by rw [h1], by rw [h1], by rw [h1], h2⟩

theorem attemptReconnect_increments_first_witness :
    samplePage.manager.reconnectAttempts = 0 ∧
      0 < samplePage.manager.maxReconnectAttempts ∧
      (attemptReconnect samplePage).manager.reconnectAttempts = 0 + 1 :=
  ⟨rfl, by decide, (attemptReconnect_increments_first samplePage 0 rfl (by decide)).1⟩

/-- C2 as worded fails: on the freshly loaded page the counter is 0 and below
the limit, yet the first reconnect waits 2000 ms, not `min (1000 * 2 ^ 0) 30000`,
which is 1000 ms. -/
theorem first_reconnect_waits_2000 :
    samplePage.manager.reconnectAttempts = 0 ∧
      samplePage.manager.reconnectAttempts < samplePage.manager.maxReconnectAttempts ∧
      min (1000 * 2 ^ 0) 30000 = 1000 ∧
      reconnectDelays (onclose samplePage) = [2000] ∧
      (attemptReconnect samplePage).timeouts ≠ samplePage.timeouts ++
        [{ callback := Callback.connectWebSocket,
           delay := min (1000 * 2 ^ samplePage.manager.reconnectAttempts) 30000 }] := by
  decide

/-- C3: in every state reached from the constructor by open, message, close and
error events (and by timers and polls firing in between) the counter lies
between 0 and the limit, and the limit is 5. -/
theorem reconnectAttempts_bounded (win : Window) (doc : Document) (events : List Event) :
    0 ≤ (run win (construct win doc) events).manager.reconnectAttempts ∧
      (run win (construct win doc) events).manager.reconnectAttempts ≤
        (run win (construct win doc) events).manager.maxReconnectAttempts ∧
      (run win (construct win doc) events).manager.maxReconnectAttempts = 5 := by
  obtain ⟨h0, h5, -⟩ := construct_manager win doc
  exact ⟨Nat.zero_le _, run_invariant win events _ (by rw [h0, h5]; exact ⟨by decide, rfl⟩)⟩

/-- C4: from a counter of 0, a run of events without an open schedules one
reconnect for each of its first five closes and none after, with delays 2000,
4000, 8000, 16000, 30000; a close that finds the counter at 5 leaves the
manager and the timers as they were, and so does `attemptReconnect` the whole
state. -/
theorem five_reconnects_then_none (win : Window) (w : World) (events : List Event)
    (h0 : w.manager.reconnectAttempts = 0) (hmax : w.manager.maxReconnectAttempts = 5)
    (hno : Event.open ∉ events) :
    reconnectDelays (run win w events) =
        reconnectDelays w ++ backoffSchedule.take (closes events) ∧
      (reconnectDelays (run win w events)).length =
        (reconnectDelays w).length + min (closes events) 5 ∧
      (5 ≤ closes events →
        (run win w events).manager.reconnectAttempts = 5 ∧
        attemptReconnect (run win w events) = run win w events ∧
        (onclose (run win w events)).manager = (run win w events).manager ∧
        (onclose (run win w events)).timeouts = (run win w events).timeouts) := by
  obtain ⟨h1, h2, h3⟩ := run_without_open win events w hmax (by omega) hno
  rw [h0] at h2 h3
  simp only [List.drop_zero, Nat.zero_add] at h2 h3
  refine ⟨h3, ?_, ?_⟩
  · rw [h3]
    simp [backoffSchedule]
  · intro h5
    have hr : (run win w events).manager.reconnectAttempts = 5 := by rw [h2]; omega
    have hnlt : ¬ (run win w events).manager.reconnectAttempts <
        (run win w events).manager.maxReconnectAttempts := by rw [hr, h1]; decide
    exact ⟨hr, attemptReconnect_of_not_lt hnlt, onclose_of_not_lt hnlt⟩

theorem five_reconnects_then_none_witness :
    samplePage.manager.reconnectAttempts = 0 ∧
      samplePage.manager.maxReconnectAttempts = 5 ∧
      Event.open ∉ List.replicate 7 Event.close ∧
      reconnectDelays (run sampleWindow samplePage (List.replicate 7 Event.close)) =
        reconnectDelays samplePage ++ backoffSchedule.take (closes (List.replicate 7 Event.close)) :=
  ⟨rfl, rfl, by decide,
    (five_reconnects_then_none sampleWindow samplePage (List.replicate 7 Event.close)
      rfl rfl (by decide)).1⟩

/-- C5: whatever the counter was, the open handler sets it to 0 and leaves the
limit, the socket and the rest of the page but the console as they were; with
the limit at 5, the close that follows schedules 2000 ms, the delay of the
first close after page load. -/
theorem onopen_resets_counter (win : Window) (doc : Document) (w : World)
    (hmax : w.manager.maxReconnectAttempts = 5) :
    (onopen w).manager.reconnectAttempts = 0 ∧
      (onopen w).manager.maxReconnectAttempts = w.manager.maxReconnectAttempts ∧
      (onopen w).manager.socket = w.manager.socket ∧
      onopen w =
        { w with
          manager := { w.manager with reconnectAttempts := 0 }
          console := w.console ++ ["WebSocket connected"] } ∧
      reconnectDelays (onclose (onopen w)) = reconnectDelays w ++ [2000] ∧
      reconnectDelays (onclose (construct win doc)) = [2000] := by
  refine ⟨rfl, rfl, rfl, rfl, ?_, ?_⟩
  · have hlt : (onopen w).manager.reconnectAttempts < (onopen w).manager.maxReconnectAttempts := by
      show 0 < w.manager.maxReconnectAttempts
      omega
    obtain ⟨-, -, h3⟩ := onclose_of_lt hlt
    rw [h3]
    show reconnectDelays w ++ [reconnectDelay 1] = reconnectDelays w ++ [2000]
    rw [reconnectDelay_one]
  · obtain ⟨h0, h5, ht⟩ := construct_manager win doc
    have hlt : (construct win doc).manager.reconnectAttempts <
        (construct win doc).manager.maxReconnectAttempts := by rw [h0, h5]; decide
    obtain ⟨-, -, h3⟩ := onclose_of_lt hlt
    rw [h3, h0, reconnectDelay_one]
    simp [reconnectDelays, ht]

theorem onopen_resets_counter_witness :
    (run sampleWindow samplePage [Event.close, Event.close]).manager.maxReconnectAttempts = 5 ∧
      (run sampleWindow samplePage [Event.close, Event.close]).manager.reconnectAttempts = 2 ∧
      (onopen (run sampleWindow samplePage [Event.close, Event.close])).manager.reconnectAttempts
        = 0 :=
  ⟨rfl, rfl,
    (onopen_resets_counter sampleWindow sampleDocument
      (run sampleWindow samplePage [Event.close, Event.close]) rfl).1⟩

/-! ## Rendering and message dispatch: the claims -/

/-- C7, as the code has it: when the leaderboard element exists,
`updateLeaderboard` writes to it the rows of the entries, in the order received
and one per entry.  The row at index `i` starts with the rank span showing
`i + 1`, contains the image with the crest and the name of entry `i`, the
heading with its name and the line with its points; its rank span has the class
`text-yellow-400` and it ends with the trophy in front of the closing text
exactly when `i < 3`, and otherwise has `text-gray-300` and no marker.  Of the
four example houses the first three are top-ranked and the fourth is plain. -/
theorem updateLeaderboard_rows (entries : List LeaderboardEntry) (w : World) (old : String)
    (h : w.leaderboard = some old) :
    updateLeaderboard (some entries) w =
        .ok { w with leaderboard := some (String.join (entries.mapIdx renderRow)) } ∧
      (entries.mapIdx renderRow).length = entries.length ∧
      (∀ (i : Nat) (hi : i < entries.length),
        ∃ row : String, (entries.mapIdx renderRow)[i]? = some row ∧
          beginsWith row
            (rowOpen ++ rankSpan (if i < 3 then "text-yellow-400" else "text-gray-300") (i + 1)) ∧
          includes row (crestImage entries[i].crest entries[i].name) ∧
          includes row (nameHeading entries[i].name) ∧
          includes row (pointsLine entries[i].points) ∧
          (beginsWith row (rowOpen ++ topRankedTag) ↔ i < 3) ∧
          (finishesWith row (trophy ++ rowClose) ↔ i < 3) ∧
          (¬ i < 3 → isPlain row = true)) ∧
      (fourHouses.mapIdx renderRow).map isTopRanked = [true, true, true, false] ∧
      (fourHouses.mapIdx renderRow).map isPlain = [false, false, false, true] := by
  refine ⟨?_, List.length_mapIdx, ?_, ?_, ?_⟩
  · simp [updateLeaderboard, h]
  · intro i hi
    refine ⟨renderRow i entries[i], ?_, renderRow_rankSpan i _, renderRow_crestImage i _,
      renderRow_nameHeading i _, renderRow_pointsLine i _, renderRow_topRankedTag i _,
      renderRow_trophy i _, renderRow_plain i _⟩
    rw [List.getElem?_mapIdx, List.getElem?_eq_getElem hi]
    rfl
  · rw [mapIdx_fourHouses]
    simp only [List.map, isTopRanked_renderRow]
    decide
  · rw [mapIdx_fourHouses]
    simp only [List.map, isPlain_renderRow_of_lt _ _ (by decide : 0 < 3),
      isPlain_renderRow_of_lt _ _ (by decide : 1 < 3),
      isPlain_renderRow_of_lt _ _ (by decide : 2 < 3),
      renderRow_plain 3 _ (by decide)]

theorem updateLeaderboard_rows_witness :
    samplePage.leaderboard = some "" ∧
      (updateLeaderboard (some fourHouses) samplePage =
        .ok { samplePage with leaderboard := some (String.join (fourHouses.mapIdx renderRow)) }) ∧
      (fourHouses.mapIdx renderRow).length = fourHouses.length ∧
      (fourHouses.mapIdx renderRow).map isTopRanked = [true, true, true, false] :=
  ⟨rfl, (updateLeaderboard_rows fourHouses samplePage "" rfl).1,
    (updateLeaderboard_rows fourHouses samplePage "" rfl).2.1,
    (updateLeaderboard_rows fourHouses samplePage "" rfl).2.2.2.1⟩

/-- C7 as worded fails: on a page without the leaderboard element
`updateLeaderboard` renders no row for the four example houses and leaves the
page as it was.  And since a name is written into the row as it is, a row at
index 3 whose name is the markup of the trophy contains that markup, though it
does not end with it. -/
theorem updateLeaderboard_without_element :
    barePage.leaderboard = none ∧
      updateLeaderboard (some fourHouses) barePage = .ok barePage ∧
      fourHouses.length = 4 ∧
      includes (renderRow 3 trophyNamed) trophy ∧
      ¬ finishesWith (renderRow 3 trophyNamed) (trophy ++ rowClose) := by
  exact ⟨rfl, rfl, rfl, renderRow_name 3 trophyNamed,
    fun h => absurd ((renderRow_trophy 3 trophyNamed).1 h) (by decide)⟩

/-- C8, as the code has it: when the badge element exists,
`updateNotificationBadge count` sets its text to the string conversion of
`count`, which is the decimal numeral of `count` when its magnitude is below
`2 ^ 53`, and leaves it with the class `hidden` exactly when `count = 0`,
whatever its text and classes were; its other classes and the rest of the page
stay as they were. -/
theorem updateNotificationBadge_sets (count : Int) (w : World) (badge : Badge)
    (h : w.badge = some badge) :
    ∃ b : Badge,
      updateNotificationBadge count w = { w with badge := some b } ∧
      b.textContent = numberToString count ∧
      (count.natAbs < 2 ^ 53 → b.textContent = toString count) ∧
      ("hidden" ∈ b.classList ↔ count = 0) ∧
      (∀ c : String, c ≠ "hidden" → (c ∈ b.classList ↔ c ∈ badge.classList)) := by
  refine ⟨{ textContent := numberToString count,
            classList := classListToggle badge.classList "hidden" (decide (count = 0)) },
    ?_, rfl, numberToString_of_lt count, ?_, ?_⟩
  · simp [updateNotificationBadge, h]
  · by_cases h0 : count = 0 <;> by_cases hm : "hidden" ∈ badge.classList <;>
      simp [classListToggle, h0, hm, List.mem_filter]
  · intro c hc
    by_cases h0 : count = 0 <;> by_cases hm : "hidden" ∈ badge.classList <;>
      simp [classListToggle, h0, hm, List.mem_filter, hc]

theorem updateNotificationBadge_sets_witness :
    samplePage.badge = some { textContent := "", classList := ["hidden"] } ∧
      (updateNotificationBadge 3 samplePage).badge =
        some { textContent := "3", classList := [] } ∧
      (updateNotificationBadge 0 (updateNotificationBadge 3 samplePage)).badge =
        some { textContent := "0", classList := ["hidden"] } ∧
      ∃ b : Badge,
        updateNotificationBadge 3 samplePage = { samplePage with badge := some b } ∧
        b.textContent = numberToString 3 ∧
        ((3 : Int).natAbs < 2 ^ 53 → b.textContent = toString (3 : Int)) ∧
        ("hidden" ∈ b.classList ↔ (3 : Int) = 0) ∧
        (∀ c : String, c ≠ "hidden" → (c ∈ b.classList ↔ c ∈ ["hidden"])) :=
  ⟨rfl, by decide, by decide,
    updateNotificationBadge_sets 3 samplePage { textContent := "", classList := ["hidden"] } rfl⟩

/-- C8 as worded fails: for the count `2 ^ 60` the badge text is
`1152921504606847000`, not the decimal numeral `1152921504606846976` of the
count, and for the count `10 ^ 21` it is `1e+21`. -/
theorem badge_text_of_large_count :
    samplePage.badge = some { textContent := "", classList := ["hidden"] } ∧
      (updateNotificationBadge (2 ^ 60) samplePage).badge =
        some { textContent := "1152921504606847000", classList := [] } ∧
      toString ((2 : Int) ^ 60) = "1152921504606846976" ∧
      (updateNotificationBadge (10 ^ 21) samplePage).badge =
        some { textContent := "1e+21", classList := [] } ∧
      toString ((10 : Int) ^ 21) = "1000000000000000000000" := by
  refine ⟨rfl, by decide, by decide, by decide, by decide⟩

/-- C9, as the code has it: a parsed frame other than `null` whose type is
neither `leaderboard_update` nor `notification`, a missing type included, makes
`handleWebSocketMessage` return normally; the leaderboard, the badge, the
toasts, the manager, the timers and the platform notifications are as before,
and the console has one more line.  On the frame `null` it raises a
`TypeError`, and the page is as before. -/
theorem handleWebSocketMessage_unknown (win : Window) (properties : InboundMessage)
    (w : World)
    (h1 : (Parsed.value properties).hasType "leaderboard_update" = false)
    (h2 : (Parsed.value properties).hasType "notification" = false) :
    (∃ w1 : World, handleWebSocketMessage win (Parsed.value properties) w = .ok w1 ∧
      w1.leaderboard = w.leaderboard ∧ w1.badge = w.badge ∧ w1.body = w.body ∧
      w1.toastsCreated = w.toastsCreated ∧ w1.manager = w.manager ∧
      w1.timeouts = w.timeouts ∧ w1.intervals = w.intervals ∧
      w1.notifications = w.notifications ∧
      w1.console = w.console ++ ["Unknown message type: " ++ properties.type.toJSString]) ∧
      handleWebSocketMessage win Parsed.null w = .error JSError.typeError ∧
      handle win w (Event.message (some Parsed.null)) = w := by
  refine ⟨⟨{ w with
      console := w.console ++ ["Unknown message type: " ++ properties.type.toJSString] },
    ?_, rfl, rfl, rfl, rfl, rfl, rfl, rfl, rfl, rfl⟩, rfl, rfl⟩
  simp only [Parsed.hasType, decide_eq_false_iff_not] at h1 h2
  simp [handleWebSocketMessage, h1, h2]

theorem handleWebSocketMessage_unknown_witness :
    (Parsed.value unknownKind).hasType "leaderboard_update" = false ∧
      (Parsed.value unknownKind).hasType "notification" = false ∧
      handleWebSocketMessage sampleWindow (Parsed.value unknownKind) samplePage =
        .ok { samplePage with console := ["Unknown message type: unknown_kind"] } ∧
      ∃ w1 : World,
        handleWebSocketMessage sampleWindow (Parsed.value unknownKind) samplePage = .ok w1 ∧
        w1.leaderboard = samplePage.leaderboard ∧ w1.badge = samplePage.badge ∧
        w1.body = samplePage.body ∧ w1.toastsCreated = samplePage.toastsCreated ∧
        w1.manager = samplePage.manager ∧ w1.timeouts = samplePage.timeouts ∧
        w1.intervals = samplePage.intervals ∧
        w1.notifications = samplePage.notifications ∧
        w1.console = samplePage.console ++
          ["Unknown message type: " ++ unknownKind.type.toJSString] :=
  ⟨rfl, rfl, rfl,
    (handleWebSocketMessage_unknown sampleWindow unknownKind samplePage rfl rfl).1⟩

/-- C9 as worded fails: the frame `null` is of neither known kind, and for it
`handleWebSocketMessage` raises a `TypeError` where it reads `data.type`, as
does the `onmessage` handler that passes it on. -/
theorem handleWebSocketMessage_null_raises :
    Parsed.null.hasType "leaderboard_update" = false ∧
      Parsed.null.hasType "notification" = false ∧
      handleWebSocketMessage sampleWindow Parsed.null samplePage =
        .error JSError.typeError ∧
      onmessage sampleWindow (some Parsed.null) samplePage = .error JSError.typeError :=
  ⟨rfl, rfl, rfl, rfl⟩

/-! ## Uploading the subscription: the claim -/

/-- C10: with a subscription at hand, a failed `fetch` or a response body that
is not JSON makes the promise of `updateSubscriptionOnServer` reject, with the
request sent and nothing logged; a missing anti-forgery field rejects before
any request.  With no subscription it sends nothing and fulfils.  The polls of
`realtime.js` catch the same failures and log them. -/
theorem updateSubscriptionOnServer_rejects (field : Option String) (token sub : String)
    (u : Upload) (w : World) :
    (updateSubscriptionOnServer (some token) FetchOutcome.networkFailure (some sub) u).2 =
        Settled.rejected JSError.typeError ∧
      (updateSubscriptionOnServer (some token) FetchOutcome.networkFailure (some sub) u).1.console
        = u.console ∧
      (updateSubscriptionOnServer (some token) FetchOutcome.invalidJSON (some sub) u).2 =
        Settled.rejected JSError.syntaxError ∧
      (updateSubscriptionOnServer (some token) FetchOutcome.invalidJSON (some sub) u).1.console
        = u.console ∧
      (∀ outcome : FetchOutcome String,
        updateSubscriptionOnServer none outcome (some sub) u =
          (u, Settled.rejected JSError.typeError)) ∧
      (∀ outcome : FetchOutcome String,
        updateSubscriptionOnServer field outcome none u = (u, Settled.fulfilled)) ∧
      pollLeaderboard FetchOutcome.networkFailure w =
        { w with console := w.console ++ ["Error polling leaderboard:"] } ∧
      pollNotifications FetchOutcome.invalidJSON w =
        { w with console := w.console ++ ["Error polling notifications:"] } :=
  ⟨rfl, rfl, rfl, rfl, fun _ => rfl, fun _ => rfl, rfl, rfl⟩

/-! ## Decoding the key: the claim -/

/-- C6: `urlB64ToUint8Array` undoes unpadded base64url encoding: applied to the
encoding of any byte sequence it returns that sequence.  On every input it pads
with `=` to a length that is a multiple of four and returns what standard
base64 decoding makes of the padded string once `-` is `+` and `_` is `/`.  The
key `abc` decodes to the bytes `0x69, 0xB7`. -/
theorem urlB64ToUint8Array_base64urlEncode (bytes : List Nat) (h : ∀ x ∈ bytes, x < 256) :
    urlB64ToUint8Array (base64urlEncode bytes) = .ok bytes ∧
      (∀ s : List Nat,
        (s ++ List.replicate ((4 - s.length % 4) % 4) 61).length % 4 = 0 ∧
        urlB64ToUint8Array s =
          atob (replaceAll (replaceAll
            (s ++ List.replicate ((4 - s.length % 4) % 4) 61) 45 43) 95 47)) ∧
      urlB64ToUint8Array (codeUnits "abc") = .ok [0x69, 0xB7] := by
  refine ⟨?_, fun s => ⟨?_, urlB64ToUint8Array_eq_atob s⟩, rfl⟩
  · rw [urlB64ToUint8Array_eq_atob, replaceAll_encode]
    have hl : (base64urlEncode bytes).length = (sextetsOf bytes).length := by
      simp [base64urlEncode]
    have hlen := sextetsOf_length bytes
    rw [hl, atob_padded _ _ (by omega) (sextetsOf_lt bytes h) (by omega),
      sextetsToBytes_sextetsOf bytes h]
  · simp only [List.length_append, List.length_replicate]
    omega

theorem urlB64ToUint8Array_base64urlEncode_witness :
    (∀ x ∈ [0x69, 0xB7], x < 256) ∧
      base64urlEncode [0x69, 0xB7] = codeUnits "abc" ∧
      urlB64ToUint8Array (base64urlEncode [0x69, 0xB7]) = .ok [0x69, 0xB7] :=
  ⟨by decide, by decide,
    (urlB64ToUint8Array_base64urlEncode [0x69, 0xB7] (by decide)).1⟩

end Evoke
